import Mathlib

/-!
Verification of the Pod-manifest schema validator.

The repository contains two complete implementations of the validator:
an accumulate-all validator (namespace `Acc` below: every check records a
violation as a `(line, message)` pair and traversal continues) and a
fail-fast validator (namespace `FF` below: the first violation is returned
as a `validationError` carrying an optional line and traversal stops).
Helpers that belong to only one of the two programs but whose names do not
collide (`mapify`, `getMapValue`, `isInt`, `isString`, the pattern
checkers, `ensureString`, `ensureInt`, `isSnakeCase`, `isValidMemory`,
`validateImage`) live at the top level, mirroring their package-level
position in the source.
-/

namespace PodValid

/-- Node kinds of the generic parsed tree (yaml.Node.Kind). -/
inductive Kind where
  | scalar
  | mapping
  | sequence
  | document
  deriving DecidableEq, Repr

/-- A generic parsed tree node: kind, type tag, raw scalar value,
1-based source line, and ordered children (for mappings the children
alternate key/value). -/
inductive YamlNode : Type where
  | node (kind : Kind) (tag value : String) (line : Nat) (content : List YamlNode) : YamlNode

def YamlNode.kind : YamlNode → Kind
  | .node k _ _ _ _ => k

def YamlNode.tag : YamlNode → String
  | .node _ t _ _ _ => t

def YamlNode.value : YamlNode → String
  | .node _ _ v _ _ => v

def YamlNode.line : YamlNode → Nat
  | .node _ _ _ l _ => l

def YamlNode.content : YamlNode → List YamlNode
  | .node _ _ _ _ c => c

/-- The alternating key/value children of a mapping node, paired up.
A trailing odd child is ignored, as in the Go loops guarded by
`i+1 < len(n.Content)`. -/
def pairsOf : List YamlNode → List (YamlNode × YamlNode)
  | k :: v :: rest => (k, v) :: pairsOf rest
  | _ => []

/-- Model of Go `strconv.Atoi`: optional single sign, then a non-empty run
of base-10 digits; errors (here: `none`) on anything else and on values
outside the 64-bit signed range. -/
def decDigits (l : List Char) : Option Nat :=
  if l = [] then none
  else if l.all Char.isDigit then
    some (l.foldl (fun a c => a * 10 + (c.toNat - 48)) 0)
  else none

def atoi (s : String) : Option Int :=
  match s.data with
  | [] => none
  | c :: cs =>
    let signAndDigits : Bool × List Char :=
      if c = '-' then (true, cs)
      else if c = '+' then (false, cs)
      else (false, c :: cs)
    match decDigits signAndDigits.2 with
    | none => none
    | some n =>
      let v : Int := if signAndDigits.1 then -(n : Int) else (n : Int)
      if v < -(2 ^ 63) ∨ 2 ^ 63 - 1 < v then none else some v

/-- Field accessor of the accumulate-all program: builds a Go map from the
scalar keys of a mapping (later assignments overwrite earlier ones) and
looks the key up; non-mappings give an empty map. -/
def mapifyStep (key : String) (res : Option YamlNode) (kv : YamlNode × YamlNode) :
    Option YamlNode :=
  if kv.1.kind = Kind.scalar ∧ kv.1.value = key then some kv.2 else res

def mapify (n : YamlNode) (key : String) : Option YamlNode :=
  if n.kind ≠ Kind.mapping then none
  else (pairsOf n.content).foldl (mapifyStep key) none

/-- Field accessor of the fail-fast program: scans the key/value pairs in
order and returns the value paired with the first key whose raw text
equals the requested key. -/
def gmvFind : List (YamlNode × YamlNode) → String → Option YamlNode
  | [], _ => none
  | (k, v) :: rest, key => if k.value = key then some v else gmvFind rest key

def getMapValue (m : YamlNode) (key : String) : Option YamlNode :=
  if m.kind ≠ Kind.mapping then none
  else gmvFind (pairsOf m.content) key

/-- `isInt` of the accumulate-all program: integer tag and a raw value
`strconv.Atoi` can parse. -/
def isInt (node : YamlNode) : Bool :=
  if node.tag ≠ "!!int" then false
  else (atoi node.value).isSome

/-- `isString` of the accumulate-all program: string tag. -/
def isString (node : YamlNode) : Bool :=
  node.tag = "!!str"

/-- Character class `[a-z0-9]` of the `reSnake` pattern. -/
def okc (c : Char) : Bool :=
  c.isLower || c.isDigit

/-- Deterministic matcher for `^[a-z0-9]+(_[a-z0-9]+)*$` (`reSnake` of the
accumulate-all program). The Bool state is `true` when at least one
`[a-z0-9]` is still required (at the start and right after each `_`). -/
def snakeRun : Bool → List Char → Bool
  | true, [] => false
  | true, c :: cs => okc c && snakeRun false cs
  | false, [] => true
  | false, c :: cs =>
    if okc c then snakeRun false cs
    else if c = '_' then snakeRun true cs
    else false

def reSnake (s : String) : Bool :=
  snakeRun true s.data

/-- Two-character unit suffix `Gi|Mi|Ki` of the `reMem` pattern. -/
def memSuffix : List Char → Bool
  | [u, v] => decide ((u = 'G' ∨ u = 'M' ∨ u = 'K') ∧ v = 'i')
  | _ => false

/-- Matcher state after at least one digit of `^[0-9]+(Gi|Mi|Ki)$`. -/
def reMemTail : List Char → Bool
  | [] => false
  | c :: cs => if c.isDigit then reMemTail cs else memSuffix (c :: cs)

/-- Deterministic matcher for `^[0-9]+(Gi|Mi|Ki)$` (`reMem` of the
accumulate-all program). -/
def reMem (s : String) : Bool :=
  match s.data with
  | [] => false
  | c :: cs => c.isDigit && reMemTail cs

/-- Matcher for `^/` (`reAbs` of the accumulate-all program); also the
`strings.HasPrefix(val, "/")` check of the fail-fast probe validator. -/
def startsWithSlash (s : String) : Bool :=
  match s.data with
  | [] => false
  | c :: _ => c = '/'

/-- Character class `[^:\s]` of the `reImage` pattern. -/
def notColonSpace (c : Char) : Bool :=
  !(c = ':' : Bool) && !(c = ' ' ∨ c = '\t' ∨ c = '\n' ∨ c = '\x0c' ∨ c = '\r' : Bool)

/-- Strip a literal from the front of a character list; `none` when the
list does not start with the literal. -/
def dropLit : List Char → List Char → Option (List Char)
  | [], l => some l
  | _ :: _, [] => none
  | p :: ps, c :: cs => if c = p then dropLit ps cs else none

/-- `[^:\s]+` at the end of the `reImage` pattern. -/
def imageSecond (l : List Char) : Bool :=
  !l.isEmpty && l.all notColonSpace

/-- Continue the first `[^:\s]+` part of `reImage` or switch at `:`. -/
def imageAfter : List Char → Bool
  | [] => false
  | c :: cs => if c = ':' then imageSecond cs else notColonSpace c && imageAfter cs

/-- `[^:\s]+:[^:\s]+$` part of `reImage`. -/
def imageFirst : List Char → Bool
  | [] => false
  | c :: cs => notColonSpace c && imageAfter cs

/-- Deterministic matcher for
`^registry\.bigbrother\.io\/[^:\s]+:[^:\s]+$` (`reImage` of the
accumulate-all program). -/
def reImage (s : String) : Bool :=
  match dropLit "registry.bigbrother.io/".data s.data with
  | none => false
  | some rest => imageFirst rest

/-- `validOS` set of the accumulate-all program. -/
def validOS (s : String) : Bool :=
  s = "linux" ∨ s = "windows"

/-- `validPro` set of the accumulate-all program. -/
def validPro (s : String) : Bool :=
  s = "TCP" ∨ s = "UDP"

/-- Whitespace per Go `unicode.IsSpace` on the Latin-1 range, used by
`strings.TrimSpace` in the metadata name check. -/
def goIsSpace (c : Char) : Bool :=
  c = ' ' ∨ c = '\t' ∨ c = '\n' ∨ c = '\x0b' ∨ c = '\x0c' ∨ c = '\r' ∨
    c = '\x85' ∨ c = '\xA0'

def trimSpace (s : String) : String :=
  String.mk (((s.data.dropWhile goIsSpace).reverse.dropWhile goIsSpace).reverse)

/-- The shared port range test `val <= 0 || val >= 65536`, written
identically at all four port checks of the source. -/
def portOutOfRange (p : Int) : Bool :=
  decide (p ≤ 0) || decide (65536 ≤ p)

/-- A violation as emitted by the accumulate-all `Validator.fail`:
the line passed to `fail` and the formatted message. -/
abbrev Viol := Nat × String

namespace Acc

/-- Rendering done by `Validator.fail`: `"%s:%d %s"`. Every violation of
the accumulate-all program is printed this way, a line number always
included. -/
def render (file : String) (line : Nat) (msg : String) : String :=
  file ++ ":" ++ toString line ++ " " ++ msg

def validateResKV (name : String) (node : YamlNode) : List Viol :=
  if node.kind ≠ Kind.mapping then [(node.line, name ++ " must be object")]
  else
    (match mapify node "cpu" with
     | none => []
     | some cpu => if ¬ isInt cpu then [(cpu.line, "cpu must be int")] else []) ++
    (match mapify node "memory" with
     | none => []
     | some mem =>
       if ¬ isString mem then [(mem.line, "memory must be string")]
       else if ¬ reMem mem.value then
         [(mem.line, "memory has invalid format '" ++ mem.value ++ "'")]
       else [])

def validateResources (node : YamlNode) : List Viol :=
  if node.kind ≠ Kind.mapping then [(node.line, "resources must be object")]
  else
    (match mapify node "limits" with
     | none => []
     | some lim => validateResKV "limits" lim) ++
    (match mapify node "requests" with
     | none => []
     | some req => validateResKV "requests" req)

def validateProbe (node : YamlNode) : List Viol :=
  if node.kind ≠ Kind.mapping then [(node.line, "readinessProbe must be object")]
  else
    match mapify node "httpGet" with
    | none => [(node.line, "httpGet is required")]
    | some hg =>
      if hg.kind ≠ Kind.mapping then [(hg.line, "httpGet must be object")]
      else
        (match mapify hg "path" with
         | none => [(hg.line, "path is required")]
         | some p =>
           if ¬ isString p then [(p.line, "path must be string")]
           else if ¬ startsWithSlash p.value then
             [(p.line, "path has invalid format '" ++ p.value ++ "'")]
           else []) ++
        (match mapify hg "port" with
         | none => [(hg.line, "port is required")]
         | some prt =>
           if ¬ isInt prt then [(prt.line, "port must be int")]
           else if portOutOfRange ((atoi prt.value).getD 0) then
             [(prt.line, "port value out of range")]
           else [])

def validatePort (node : YamlNode) : List Viol :=
  if node.kind ≠ Kind.mapping then [(node.line, "ports item must be object")]
  else
    (match mapify node "containerPort" with
     | none => [(node.line, "containerPort is required")]
     | some cp =>
       if ¬ isInt cp then [(cp.line, "containerPort must be int")]
       else if portOutOfRange ((atoi cp.value).getD 0) then
         [(cp.line, "containerPort value out of range")]
       else []) ++
    (match mapify node "protocol" with
     | none => []
     | some proto =>
       if ¬ isString proto then [(proto.line, "protocol must be string")]
       else if ¬ validPro proto.value then
         [(proto.line, "protocol has unsupported value '" ++ proto.value ++ "'")]
       else [])

def validateContainer (node : YamlNode) : List Viol :=
  if node.kind ≠ Kind.mapping then [(node.line, "container must be object")]
  else
    (match mapify node "name" with
     | none => [(node.line, "name is required")]
     | some nm =>
       if ¬ isString nm then [(nm.line, "name must be string")]
       else if ¬ reSnake nm.value then
         [(nm.line, "name has invalid format '" ++ nm.value ++ "'")]
       else []) ++
    (match mapify node "image" with
     | none => [(node.line, "image is required")]
     | some img =>
       if ¬ isString img then [(img.line, "image must be string")]
       else if ¬ reImage img.value then
         [(img.line, "image has invalid format '" ++ img.value ++ "'")]
       else []) ++
    (match mapify node "ports" with
     | none => []
     | some prt =>
       if prt.kind ≠ Kind.sequence then [(prt.line, "ports must be array")]
       else prt.content.flatMap validatePort) ++
    (match mapify node "readinessProbe" with
     | none => []
     | some rp => validateProbe rp) ++
    (match mapify node "livenessProbe" with
     | none => []
     | some lp => validateProbe lp) ++
    (match mapify node "resources" with
     | none => [(node.line, "resources is required")]
     | some res => validateResources res)

/-- The inline `os` switch of the accumulate-all `validateSpec`, applied to
the value found under the `os` key. -/
def checkOSValue (osn : YamlNode) : List Viol :=
  match osn.kind with
  | Kind.scalar =>
    if ¬ validOS osn.value then
      [(osn.line, "os has unsupported value '" ++ osn.value ++ "'")]
    else []
  | Kind.mapping =>
    match mapify osn "name" with
    | none => [(osn.line, "name is required")]
    | some n =>
      if ¬ isString n then [(n.line, "name must be string")]
      else if ¬ validOS n.value then
        [(n.line, "name has unsupported value '" ++ n.value ++ "'")]
      else []
  | _ => [(osn.line, "os must be string or object")]

def validateSpec (node : YamlNode) : List Viol :=
  if node.kind ≠ Kind.mapping then [(node.line, "spec must be object")]
  else
    (match mapify node "os" with
     | none => []
     | some osn => checkOSValue osn) ++
    (match mapify node "containers" with
     | none => [(node.line, "containers is required")]
     | some cn =>
       if cn.kind ≠ Kind.sequence then [(cn.line, "containers must be array")]
       else cn.content.flatMap validateContainer)

def validateMetadata (node : YamlNode) : List Viol :=
  if node.kind ≠ Kind.mapping then [(node.line, "metadata must be object")]
  else
    (match mapify node "name" with
     | none => [(node.line, "name is required")]
     | some nm =>
       if ¬ isString nm then [(nm.line, "name must be string")]
       else if trimSpace nm.value = "" then [(nm.line, "name is required")]
       else []) ++
    (match mapify node "namespace" with
     | none => []
     | some ns => if ¬ isString ns then [(ns.line, "namespace must be string")] else []) ++
    (match mapify node "labels" with
     | none => []
     | some lbs =>
       if lbs.kind ≠ Kind.mapping then [(lbs.line, "labels must be object")]
       else (pairsOf lbs.content).flatMap (fun kv =>
         (if kv.1.tag ≠ "!!str" then [(kv.1.line, "labels key must be string")] else []) ++
         (if kv.2.tag ≠ "!!str" then [(kv.2.line, "labels value must be string")] else [])))

/-- Body of `validateRoot` once the document wrapper has been unwrapped. -/
def validateDoc (doc : YamlNode) : List Viol :=
  if doc.kind ≠ Kind.mapping then [(doc.line, "top-level must be a mapping")]
    else
      (match mapify doc "apiVersion" with
       | none => [(doc.line, "apiVersion is required")]
       | some api =>
         if ¬ isString api then [(api.line, "apiVersion must be string")]
         else if api.value ≠ "v1" then
           [(api.line, "apiVersion has unsupported value '" ++ api.value ++ "'")]
         else []) ++
      (match mapify doc "kind" with
       | none => [(doc.line, "kind is required")]
       | some kd =>
         if ¬ isString kd then [(kd.line, "kind must be string")]
         else if kd.value ≠ "Pod" then
           [(kd.line, "kind has unsupported value '" ++ kd.value ++ "'")]
         else []) ++
      (match mapify doc "metadata" with
       | none => [(doc.line, "metadata is required")]
       | some meta => validateMetadata meta) ++
      (match mapify doc "spec" with
       | none => [(doc.line, "spec is required")]
       | some spec => validateSpec spec)

def validateRoot (root : YamlNode) : List Viol :=
  validateDoc (if root.kind = Kind.document then root.content.headD root else root)

/-- The exit decision of the accumulate-all `main`: exit code 1 iff
`v.errs > 0`, where `errs` counts the `fail` calls. -/
def runFails (root : YamlNode) : Bool :=
  decide (0 < (validateRoot root).length)

end Acc

/-- `validationError` of the fail-fast program: a message plus an optional
source line (`none` when the line is unknown, e.g. a required field absent
from its parent). -/
structure VErr where
  line : Option Nat
  msg : String
  deriving DecidableEq, Repr

namespace FF

/-- Rendering done by the fail-fast `main` for a `validationError`:
`"%s:%d %s"` when the line is known, `"%s: %s"` when it is not. -/
def render (path : String) (e : VErr) : String :=
  match e.line with
  | some l => path ++ ":" ++ toString l ++ " " ++ e.msg
  | none => path ++ ": " ++ e.msg

def ensureString (node : YamlNode) (field : String) : Option VErr :=
  if node.kind ≠ Kind.scalar ∨ node.tag ≠ "!!str" then
    some ⟨some node.line, field ++ " must be string"⟩
  else none

def ensureInt (node : YamlNode) (field : String) : Option VErr :=
  if node.kind ≠ Kind.scalar ∨ node.tag ≠ "!!int" then
    some ⟨some node.line, field ++ " must be int"⟩
  else if (atoi node.value).isNone then
    some ⟨some node.line, field ++ " must be int"⟩
  else none

/-- `isSnakeCase` of the fail-fast program: a character loop over the
name, accepting `[a-z0-9]` anywhere and `_` at any position that is
neither the first nor the last. -/
def snakeChars (n : Nat) : Nat → List Char → Bool
  | _, [] => true
  | i, c :: cs =>
    if okc c then snakeChars n (i + 1) cs
    else if c = '_' ∧ i ≠ 0 ∧ i ≠ n - 1 then snakeChars n (i + 1) cs
    else false

def isSnakeCase (s : String) : Bool :=
  if s = "" then false
  else snakeChars s.data.length 0 s.data

/-- Index of the last occurrence of a character, `-1` when absent
(Go `strings.LastIndex` on a single-character needle). -/
def lastIdx (c : Char) : List Char → Int
  | [] => -1
  | a :: as =>
    let r := lastIdx c as
    if 0 ≤ r then r + 1 else if a = c then 0 else -1

/-- `validateImage` of the fail-fast program: registry prefix, then a `:`
strictly after the last `/`, not in last position. -/
def validateImage (node : YamlNode) : Option VErr :=
  if (dropLit "registry.bigbrother.io/".data node.value.data).isNone then
    some ⟨some node.line, "image has invalid format '" ++ node.value ++ "'"⟩
  else
    if lastIdx ':' node.value.data = -1 ∨
        lastIdx ':' node.value.data < lastIdx '/' node.value.data + 1 ∨
        lastIdx ':' node.value.data = (node.value.data.length : Int) - 1 then
      some ⟨some node.line, "image has invalid format '" ++ node.value ++ "'"⟩
    else none

/-- `isValidMemory` of the fail-fast program: at least three characters,
a `Gi`/`Mi`/`Ki` suffix and a numeric part `strconv.Atoi` accepts. -/
def isValidMemory (s : String) : Bool :=
  if s.data.length < 3 then false
  else if s.data.drop (s.data.length - 2) ≠ ['G', 'i'] ∧
      s.data.drop (s.data.length - 2) ≠ ['M', 'i'] ∧
      s.data.drop (s.data.length - 2) ≠ ['K', 'i'] then false
  else if s.data.take (s.data.length - 2) = ([] : List Char) then false
  else (atoi (String.mk (s.data.take (s.data.length - 2)))).isSome

/-- Loop body of the fail-fast `validateResourceMap`: entries checked by
key name, unknown keys skipped, first error returned. -/
def resMapLoop : List (YamlNode × YamlNode) → Option VErr
  | [] => none
  | (k, v) :: rest =>
    if k.value = "cpu" then
      match ensureInt v "cpu" with
      | some e => some e
      | none => resMapLoop rest
    else if k.value = "memory" then
      match ensureString v "memory" with
      | some e => some e
      | none =>
        if ¬ isValidMemory v.value then
          some ⟨some v.line, "memory has invalid format '" ++ v.value ++ "'"⟩
        else resMapLoop rest
    else resMapLoop rest

def validateResourceMap (node : YamlNode) : Option VErr :=
  resMapLoop (pairsOf node.content)

def validateResources (node : YamlNode) : Option VErr :=
  match
    (match getMapValue node "limits" with
     | none => none
     | some lim =>
       if lim.kind ≠ Kind.mapping then some ⟨some lim.line, "limits must be object"⟩
       else validateResourceMap lim : Option VErr) with
  | some e => some e
  | none =>
    match getMapValue node "requests" with
    | none => none
    | some req =>
      if req.kind ≠ Kind.mapping then some ⟨some req.line, "requests must be object"⟩
      else validateResourceMap req

def validateProbe (node : YamlNode) : Option VErr :=
  match getMapValue node "httpGet" with
  | none => some ⟨none, "httpGet is required"⟩
  | some httpNode =>
    if httpNode.kind ≠ Kind.mapping then
      some ⟨some httpNode.line, "httpGet must be object"⟩
    else
      match getMapValue httpNode "path" with
      | none => some ⟨none, "path is required"⟩
      | some pathNode =>
        match ensureString pathNode "path" with
        | some e => some e
        | none =>
          if ¬ startsWithSlash pathNode.value then
            some ⟨some pathNode.line, "path has invalid format '" ++ pathNode.value ++ "'"⟩
          else
            match getMapValue httpNode "port" with
            | none => some ⟨none, "port is required"⟩
            | some portNode =>
              match ensureInt portNode "port" with
              | some e => some e
              | none =>
                if portOutOfRange ((atoi portNode.value).getD 0) then
                  some ⟨some portNode.line, "port value out of range"⟩
                else none

def validateContainerPort (node : YamlNode) : Option VErr :=
  match getMapValue node "containerPort" with
  | none => some ⟨none, "containerPort is required"⟩
  | some cpNode =>
    match ensureInt cpNode "containerPort" with
    | some e => some e
    | none =>
      if portOutOfRange ((atoi cpNode.value).getD 0) then
        some ⟨some cpNode.line, "containerPort value out of range"⟩
      else
        match getMapValue node "protocol" with
        | none => none
        | some protoNode =>
          match ensureString protoNode "protocol" with
          | some e => some e
          | none =>
            if protoNode.value ≠ "TCP" ∧ protoNode.value ≠ "UDP" then
              some ⟨some protoNode.line,
                "protocol has unsupported value '" ++ protoNode.value ++ "'"⟩
            else none

/-- The `ports` element loop of the fail-fast `validateContainer`. -/
def portsLoop : List YamlNode → Option VErr
  | [] => none
  | p :: rest =>
    if p.kind ≠ Kind.mapping then some ⟨some p.line, "ports must be object"⟩
    else
      match validateContainerPort p with
      | some e => some e
      | none => portsLoop rest

def validateContainer (node : YamlNode) : Option VErr :=
  match getMapValue node "name" with
  | none => some ⟨none, "name is required"⟩
  | some nameNode =>
    match ensureString nameNode "name" with
    | some e => some e
    | none =>
      if ¬ isSnakeCase nameNode.value then
        some ⟨some nameNode.line, "name has invalid format '" ++ nameNode.value ++ "'"⟩
      else
        match getMapValue node "image" with
        | none => some ⟨none, "image is required"⟩
        | some imageNode =>
          match ensureString imageNode "image" with
          | some e => some e
          | none =>
            match validateImage imageNode with
            | some e => some e
            | none =>
              match
                (match getMapValue node "ports" with
                 | none => none
                 | some portsNode =>
                   if portsNode.kind ≠ Kind.sequence then
                     some ⟨some portsNode.line, "ports must be array"⟩
                   else portsLoop portsNode.content : Option VErr) with
              | some e => some e
              | none =>
                match
                  (match getMapValue node "readinessProbe" with
                   | none => none
                   | some rpNode =>
                     if rpNode.kind ≠ Kind.mapping then
                       some ⟨some rpNode.line, "readinessProbe must be object"⟩
                     else validateProbe rpNode : Option VErr) with
                | some e => some e
                | none =>
                  match
                    (match getMapValue node "livenessProbe" with
                     | none => none
                     | some lpNode =>
                       if lpNode.kind ≠ Kind.mapping then
                         some ⟨some lpNode.line, "livenessProbe must be object"⟩
                       else validateProbe lpNode : Option VErr) with
                  | some e => some e
                  | none =>
                    match getMapValue node "resources" with
                    | none => some ⟨none, "resources is required"⟩
                    | some resNode =>
                      if resNode.kind ≠ Kind.mapping then
                        some ⟨some resNode.line, "resources must be object"⟩
                      else validateResources resNode

/-- The container element loop of the fail-fast `validateSpec`. -/
def containersLoop : List YamlNode → Option VErr
  | [] => none
  | c :: rest =>
    if c.kind ≠ Kind.mapping then some ⟨some c.line, "container must be object"⟩
    else
      match validateContainer c with
      | some e => some e
      | none => containersLoop rest

def validateSpec (node : YamlNode) : Option VErr :=
  match
    (match getMapValue node "os" with
     | none => none
     | some osNode =>
       match ensureString osNode "os" with
       | some e => some e
       | none =>
         if osNode.value ≠ "linux" ∧ osNode.value ≠ "windows" then
           some ⟨some osNode.line, "os has unsupported value '" ++ osNode.value ++ "'"⟩
         else none : Option VErr) with
  | some e => some e
  | none =>
    match getMapValue node "containers" with
    | none => some ⟨none, "containers is required"⟩
    | some containersNode =>
      if containersNode.kind ≠ Kind.sequence then
        some ⟨some containersNode.line, "containers must be array"⟩
      else if containersNode.content.length = 0 then
        some ⟨some containersNode.line, "containers value out of range"⟩
      else containersLoop containersNode.content

def validateMetadata (node : YamlNode) : Option VErr :=
  match getMapValue node "name" with
  | none => some ⟨none, "name is required"⟩
  | some nameNode =>
    match ensureString nameNode "name" with
    | some e => some e
    | none =>
      match
        (match getMapValue node "namespace" with
         | none => none
         | some nsNode => ensureString nsNode "namespace" : Option VErr) with
      | some e => some e
      | none =>
        match getMapValue node "labels" with
        | none => none
        | some labelsNode =>
          if labelsNode.kind ≠ Kind.mapping then
            some ⟨some labelsNode.line, "labels must be object"⟩
          else none

def validatePod (doc : YamlNode) : Option VErr :=
  if doc.kind ≠ Kind.mapping then some ⟨some doc.line, "root must be object"⟩
  else
    match getMapValue doc "apiVersion" with
    | none => some ⟨none, "apiVersion is required"⟩
    | some apiVerNode =>
      match ensureString apiVerNode "apiVersion" with
      | some e => some e
      | none =>
        if apiVerNode.value ≠ "v1" then
          some ⟨some apiVerNode.line,
            "apiVersion has unsupported value '" ++ apiVerNode.value ++ "'"⟩
        else
          match getMapValue doc "kind" with
          | none => some ⟨none, "kind is required"⟩
          | some kindNode =>
            match ensureString kindNode "kind" with
            | some e => some e
            | none =>
              if kindNode.value ≠ "Pod" then
                some ⟨some kindNode.line,
                  "kind has unsupported value '" ++ kindNode.value ++ "'"⟩
              else
                match getMapValue doc "metadata" with
                | none => some ⟨none, "metadata is required"⟩
                | some metaNode =>
                  if metaNode.kind ≠ Kind.mapping then
                    some ⟨some metaNode.line, "metadata must be object"⟩
                  else
                    match validateMetadata metaNode with
                    | some e => some e
                    | none =>
                      match getMapValue doc "spec" with
                      | none => some ⟨none, "spec is required"⟩
                      | some specNode =>
                        if specNode.kind ≠ Kind.mapping then
                          some ⟨some specNode.line, "spec must be object"⟩
                        else validateSpec specNode

end FF

/-! Concrete node builders for the test documents used below. -/

def scalarN (tag value : String) (line : Nat) : YamlNode :=
  .node Kind.scalar tag value line []

def mapN (line : Nat) (content : List YamlNode) : YamlNode :=
  .node Kind.mapping "!!map" "" line content

def seqN (line : Nat) (content : List YamlNode) : YamlNode :=
  .node Kind.sequence "!!seq" "" line content

def keyN (name : String) (line : Nat) : YamlNode :=
  scalarN "!!str" name line

/-- A container that passes every container check in both programs. -/
def okContainer : YamlNode :=
  mapN 3 [keyN "name" 3, scalarN "!!str" "app" 3,
          keyN "image" 4, scalarN "!!str" "registry.bigbrother.io/app:1.0" 4,
          keyN "resources" 5, mapN 5 []]

/-! ## C1: empty `containers` sequence -/

/-- Document that is fully valid except that `containers` is `[]`. -/
def c1doc : YamlNode :=
  mapN 1 [keyN "apiVersion" 1, scalarN "!!str" "v1" 1,
          keyN "kind" 2, scalarN "!!str" "Pod" 2,
          keyN "metadata" 3, mapN 4 [keyN "name" 4, scalarN "!!str" "app" 4],
          keyN "spec" 5, mapN 6 [keyN "containers" 6, seqN 6 []]]

/-- C1 counterexample: the accumulate-all validator accepts a manifest
whose `containers` field is an empty sequence with no violation at all —
the whole run reports zero violations and exits 0, so an empty containers
sequence IS silently accepted there, contradicting the claim. -/
theorem c1_counterexample :
    Acc.validateSpec (mapN 6 [keyN "containers" 6, seqN 6 []]) = [] ∧
    Acc.validateRoot c1doc = [] ∧ Acc.runFails c1doc = false := by
  refine ⟨by decide, by decide, by decide⟩

/-- C1 amended: for a spec mapping whose `containers` value is an empty
sequence (and with no `os` field), the fail-fast validator reports
"containers value out of range" at the containers node's line and fails,
while the accumulate-all validator reports no violation at all. -/
theorem c1_amended (spec cn : YamlNode)
    (hk : spec.kind = Kind.mapping)
    (hosA : mapify spec "os" = none) (hosF : getMapValue spec "os" = none)
    (hcnA : mapify spec "containers" = some cn)
    (hcnF : getMapValue spec "containers" = some cn)
    (hseq : cn.kind = Kind.sequence) (hnil : cn.content = []) :
    FF.validateSpec spec = some ⟨some cn.line, "containers value out of range"⟩ ∧
    Acc.validateSpec spec = [] := by
  constructor
  · simp [FF.validateSpec, hosF, hcnF, hseq, hnil]
  · simp [Acc.validateSpec, hk, hosA, hcnA, hseq, hnil]

/-- Spec node used to instantiate `c1_amended`. -/
def c1spec : YamlNode := mapN 10 [keyN "containers" 11, seqN 11 []]

/-- C1 witness: `c1_amended` applied to a concrete spec node. -/
theorem c1_amended_witness :
    FF.validateSpec c1spec = some ⟨some 11, "containers value out of range"⟩ ∧
    Acc.validateSpec c1spec = [] :=
  c1_amended c1spec (seqN 11 []) rfl rfl rfl rfl rfl rfl rfl

/-! ## C2: line segment for absence vs wrong-type violations -/

/-- An empty top-level mapping on line 1. -/
def c2doc : YamlNode := mapN 1 []

/-- C2 counterexample: in the accumulate-all program an absent required
field is reported by `fail(node.Line, ...)` with the PARENT mapping's
line, and `fail` always renders `"<file>:<line> <message>"`; the line
segment is present (here `:1`), not omitted as the claim states. -/
theorem c2_counterexample :
    (Acc.validateRoot c2doc).head? = some (1, "apiVersion is required") ∧
    Acc.render "pod.yaml" 1 "apiVersion is required" =
      "pod.yaml:1 apiVersion is required" := by
  refine ⟨by decide, by decide⟩

/-- C2 amended: the fail-fast program reports an absent required field
with no line and renders it without a line segment, and reports a
wrong-type field at the failing value node's line; the accumulate-all
program renders every violation with a line number, reporting absence at
the parent mapping's line and wrong types at the failing value node's
line. -/
theorem c2_amended (d : YamlNode) (hk : d.kind = Kind.mapping) :
    (mapify d "apiVersion" = none → getMapValue d "apiVersion" = none →
      FF.validatePod d = some ⟨none, "apiVersion is required"⟩ ∧
      FF.render "pod.yaml" ⟨none, "apiVersion is required"⟩ =
        "pod.yaml: apiVersion is required" ∧
      (Acc.validateRoot d).head? = some (d.line, "apiVersion is required")) ∧
    (∀ api : YamlNode, mapify d "apiVersion" = some api →
      getMapValue d "apiVersion" = some api →
      api.kind ≠ Kind.scalar → api.tag ≠ "!!str" →
      FF.validatePod d = some ⟨some api.line, "apiVersion must be string"⟩ ∧
      (Acc.validateRoot d).head? = some (api.line, "apiVersion must be string")) := by
  constructor
  · intro hA hF
    refine ⟨?_, by decide, ?_⟩
    · simp [FF.validatePod, hk, hF]
    · simp [Acc.validateRoot, Acc.validateDoc, hk, hA]
  · intro api hA hF h1 h2
    constructor
    · simp [FF.validatePod, hk, hF, FF.ensureString, h1]
    · simp [Acc.validateRoot, Acc.validateDoc, hk, hA, isString, h2]

/-- Document used to instantiate `c2_amended`: an `apiVersion` whose
value node is a mapping. -/
def c2docBad : YamlNode := mapN 1 [keyN "apiVersion" 2, mapN 2 []]

/-- C2 witness: `c2_amended` applied to a concrete empty mapping (absent
`apiVersion`) and to a concrete document whose `apiVersion` value is a
mapping (wrong type). -/
theorem c2_amended_witness :
    (FF.validatePod c2doc = some ⟨none, "apiVersion is required"⟩ ∧
      FF.render "pod.yaml" ⟨none, "apiVersion is required"⟩ =
        "pod.yaml: apiVersion is required" ∧
      (Acc.validateRoot c2doc).head? = some (1, "apiVersion is required")) ∧
    (FF.validatePod c2docBad = some ⟨some 2, "apiVersion must be string"⟩ ∧
      (Acc.validateRoot c2docBad).head? = some (2, "apiVersion must be string")) :=
  ⟨(c2_amended c2doc rfl).1 rfl rfl,
   (c2_amended c2docBad rfl).2 (mapN 2 []) rfl rfl (by decide) (by decide)⟩

/-! ## C6: the two forms of the `os` field -/

/-- The mapping-form `os` value `{name: linux}`. -/
def c6os : YamlNode := mapN 2 [keyN "name" 2, scalarN "!!str" "linux" 2]

/-- A spec with mapping-form `os` and one fully valid container. -/
def c6spec : YamlNode :=
  mapN 1 [keyN "os" 1, c6os, keyN "containers" 3, seqN 3 [okContainer]]

/-- C6 counterexample: on a spec whose `os` is the mapping form
`{name: linux}` (and whose containers are fully valid), the fail-fast
validator reports "os must be string" — the mapping form is not accepted
there, contradicting the claim; the accumulate-all validator accepts the
same spec without any violation. -/
theorem c6_counterexample :
    FF.validateSpec c6spec = some ⟨some 2, "os must be string"⟩ ∧
    Acc.validateSpec c6spec = [] := by
  refine ⟨by decide, by decide⟩

/-- C6 amended: the accumulate-all validator accepts both the bare-string
form (`linux`/`windows`) and the mapping form with a string `name` equal
to an allowed OS, producing no os violation; the fail-fast validator
accepts only the bare string form and reports "os must be string" at the
os node's line whenever the `os` value is a mapping. -/
theorem c6_amended :
    (∀ osn nm : YamlNode, osn.kind = Kind.mapping →
      mapify osn "name" = some nm → nm.tag = "!!str" →
      (nm.value = "linux" ∨ nm.value = "windows") →
      Acc.checkOSValue osn = []) ∧
    (∀ osn : YamlNode, osn.kind = Kind.scalar →
      (osn.value = "linux" ∨ osn.value = "windows") →
      Acc.checkOSValue osn = []) ∧
    (∀ spec osn : YamlNode, spec.kind = Kind.mapping →
      getMapValue spec "os" = some osn → osn.kind = Kind.mapping →
      FF.validateSpec spec = some ⟨some osn.line, "os must be string"⟩) := by
  refine ⟨?_, ?_, ?_⟩
  · intro osn nm hk hnm htag hval
    simp [Acc.checkOSValue, hk, hnm, isString, htag, validOS]
    rcases hval with h | h <;> simp [h]
  · intro osn hk hval
    simp [Acc.checkOSValue, hk, validOS]
    rcases hval with h | h <;> simp [h]
  · intro spec osn _ hos hk
    simp [FF.validateSpec, hos, FF.ensureString, hk]

/-- C6 witness: `c6_amended` applied to the concrete mapping-form os
node, a concrete bare-string os node, and the concrete spec `c6spec`. -/
theorem c6_amended_witness :
    Acc.checkOSValue c6os = [] ∧
    Acc.checkOSValue (scalarN "!!str" "windows" 7) = [] ∧
    FF.validateSpec c6spec = some ⟨some 2, "os must be string"⟩ :=
  ⟨c6_amended.1 c6os (scalarN "!!str" "linux" 2) rfl rfl rfl (Or.inl rfl),
   c6_amended.2.1 (scalarN "!!str" "windows" 7) rfl (Or.inr rfl),
   c6_amended.2.2 c6spec c6os rfl rfl rfl⟩

/-! ## C7: the port range check -/

def c7port0 : YamlNode := mapN 5 [keyN "containerPort" 5, scalarN "!!int" "0" 5]

def c7port65536 : YamlNode := mapN 6 [keyN "containerPort" 6, scalarN "!!int" "65536" 6]

def c7port1 : YamlNode := mapN 7 [keyN "containerPort" 7, scalarN "!!int" "1" 7]

def c7port65535 : YamlNode := mapN 8 [keyN "containerPort" 8, scalarN "!!int" "65535" 8]

def c7probe0 : YamlNode :=
  mapN 9 [keyN "httpGet" 9,
          mapN 10 [keyN "path" 10, scalarN "!!str" "/health" 10,
                   keyN "port" 11, scalarN "!!int" "0" 11]]

def c7probeOk : YamlNode :=
  mapN 9 [keyN "httpGet" 9,
          mapN 10 [keyN "path" 10, scalarN "!!str" "/health" 10,
                   keyN "port" 11, scalarN "!!int" "8080" 11]]

/-- C7: the range test `val <= 0 || val >= 65536` used for every port
field passes exactly the integers 1..65535; both programs reject ports 0
and 65536 as out of range and accept 1 and 65535, for `containerPort` and
for the `httpGet` port alike. -/
theorem c7_port_range :
    (∀ v : Int, portOutOfRange v = false ↔ (1 ≤ v ∧ v ≤ 65535)) ∧
    Acc.validatePort c7port0 = [(5, "containerPort value out of range")] ∧
    Acc.validatePort c7port65536 = [(6, "containerPort value out of range")] ∧
    Acc.validatePort c7port1 = [] ∧
    Acc.validatePort c7port65535 = [] ∧
    FF.validateContainerPort c7port0 = some ⟨some 5, "containerPort value out of range"⟩ ∧
    FF.validateContainerPort c7port65536 = some ⟨some 6, "containerPort value out of range"⟩ ∧
    FF.validateContainerPort c7port1 = none ∧
    FF.validateContainerPort c7port65535 = none ∧
    FF.validateProbe c7probe0 = some ⟨some 11, "port value out of range"⟩ ∧
    FF.validateProbe c7probeOk = none ∧
    Acc.validateProbe c7probe0 = [(11, "port value out of range")] ∧
    Acc.validateProbe c7probeOk = [] := by
  refine ⟨?_, by decide, by decide, by decide, by decide, by decide, by decide,
    by decide, by decide, by decide, by decide, by decide, by decide⟩
  intro v
  simp only [portOutOfRange, Bool.or_eq_false_iff, decide_eq_false_iff_not, not_le]
  omega

/-- C7 witness: the range-check characterization applied at 65535. -/
theorem c7_port_range_witness : portOutOfRange 65535 = false :=
  (c7_port_range.1 65535).mpr ⟨by decide, by decide⟩

/-! ## C8: the integer check -/

/-- A mapping whose `containerPort` value carries the integer tag but a
raw value `strconv.Atoi` rejects. -/
def c8bad : YamlNode := mapN 7 [keyN "containerPort" 7, scalarN "!!int" "12x" 7]

/-- C8: `isInt` is true exactly when the node carries the `!!int` tag and
its raw value parses as a base-10 integer; whenever `isInt` holds the
parse succeeds (so the later `Atoi` in the range check is only reached on
parseable values); a node tagged `!!int` whose value does not parse is
reported as "must be int" by the accumulate-all port validator and by the
fail-fast `ensureInt`. -/
theorem c8_is_int :
    (∀ n : YamlNode, isInt n = true ↔ (n.tag = "!!int" ∧ (atoi n.value).isSome = true)) ∧
    (∀ n : YamlNode, isInt n = true → (atoi n.value).isSome = true) ∧
    (∀ node cp : YamlNode, node.kind = Kind.mapping →
      mapify node "containerPort" = some cp → mapify node "protocol" = none →
      cp.tag = "!!int" → atoi cp.value = none →
      Acc.validatePort node = [(cp.line, "containerPort must be int")]) ∧
    (∀ n : YamlNode, n.kind = Kind.scalar → n.tag = "!!int" → atoi n.value = none →
      FF.ensureInt n "port" = some ⟨some n.line, "port must be int"⟩) := by
  refine ⟨?_, ?_, ?_, ?_⟩
  · intro n
    by_cases h : n.tag = "!!int" <;> simp [isInt, h]
  · intro n h
    by_cases ht : n.tag = "!!int"
    · simpa [isInt, ht] using h
    · simp [isInt, ht] at h
  · intro node cp hk hcp hproto htag hparse
    simp [Acc.validatePort, hk, hcp, hproto, isInt, htag, hparse]
  · intro n hk ht hparse
    simp [FF.ensureInt, hk, ht, hparse]

/-- C8 witness: `c8_is_int` applied to the concrete node whose
`containerPort` is tagged `!!int` with unparseable value `12x`. -/
theorem c8_is_int_witness :
    Acc.validatePort c8bad = [(7, "containerPort must be int")] ∧
    FF.ensureInt (scalarN "!!int" "12x" 7) "port" = some ⟨some 7, "port must be int"⟩ :=
  ⟨c8_is_int.2.2.1 c8bad (scalarN "!!int" "12x" 7) rfl rfl rfl rfl rfl,
   c8_is_int.2.2.2 (scalarN "!!int" "12x" 7) rfl rfl rfl⟩

/-! ## C9: accumulate-all keeps validating later containers; verdict -/

/-- C9: under the accumulate-all policy the containers loop visits every
element — the spec validator's result is exactly the concatenation of
each container's violations in order, so a violation in one container
never prevents validation of subsequent containers — and the run fails
(exit 1) iff the collected violation list is non-empty. -/
theorem c9_accumulate :
    (∀ node cn : YamlNode, node.kind = Kind.mapping →
      mapify node "os" = none → mapify node "containers" = some cn →
      cn.kind = Kind.sequence →
      Acc.validateSpec node = cn.content.flatMap Acc.validateContainer) ∧
    (∀ (l1 : List YamlNode) (c : YamlNode) (l2 : List YamlNode),
      (l1 ++ c :: l2).flatMap Acc.validateContainer =
        l1.flatMap Acc.validateContainer ++ Acc.validateContainer c ++
          l2.flatMap Acc.validateContainer) ∧
    (∀ root : YamlNode, Acc.runFails root = true ↔ Acc.validateRoot root ≠ []) := by
  refine ⟨?_, ?_, ?_⟩
  · intro node cn hk hos hcn hseq
    simp [Acc.validateSpec, hk, hos, hcn, hseq]
  · intro l1 c l2
    simp [List.flatMap_append, List.append_assoc]
  · intro root
    simp [Acc.runFails, List.length_pos]

/-- Two malformed containers (scalars where mappings are required). -/
def c9bad1 : YamlNode := scalarN "!!str" "x" 3

def c9bad2 : YamlNode := scalarN "!!str" "y" 4

def c9spec : YamlNode := mapN 1 [keyN "containers" 2, seqN 2 [c9bad1, c9bad2]]

/-- C9 witness: `c9_accumulate` applied to a concrete spec with two
malformed containers — both are visited and both violations collected —
and to the concrete failing document `c9spec` wrapped as a root. -/
theorem c9_accumulate_witness :
    Acc.validateSpec c9spec = [c9bad1, c9bad2].flatMap Acc.validateContainer ∧
    ([c9bad1] ++ c9bad2 :: []).flatMap Acc.validateContainer =
      [c9bad1].flatMap Acc.validateContainer ++ Acc.validateContainer c9bad2 ++
        ([] : List YamlNode).flatMap Acc.validateContainer ∧
    (Acc.runFails c2doc = true ↔ Acc.validateRoot c2doc ≠ []) :=
  ⟨c9_accumulate.1 c9spec (seqN 2 [c9bad1, c9bad2]) rfl rfl rfl rfl,
   c9_accumulate.2.1 [c9bad1] c9bad2 [],
   c9_accumulate.2.2 c2doc⟩

/-! ## C10: hard-coded probe field name -/

/-- A container whose `livenessProbe` is a scalar, not a mapping. -/
def c10cont : YamlNode := mapN 1 [keyN "livenessProbe" 2, scalarN "!!str" "nope" 2]

/-- C10: the accumulate-all probe validator hard-codes `readinessProbe`
in its wrong-type message, so a container whose `livenessProbe` is not a
mapping is reported as "readinessProbe must be object" at the probe
node's line. -/
theorem c10_probe_message :
    (∀ node : YamlNode, node.kind ≠ Kind.mapping →
      Acc.validateProbe node = [(node.line, "readinessProbe must be object")]) ∧
    (∀ node lp : YamlNode, node.kind = Kind.mapping →
      mapify node "livenessProbe" = some lp → lp.kind ≠ Kind.mapping →
      (lp.line, "readinessProbe must be object") ∈ Acc.validateContainer node) := by
  constructor
  · intro node h
    simp [Acc.validateProbe, h]
  · intro node lp hk hlp hnm
    have hprobe : Acc.validateProbe lp = [(lp.line, "readinessProbe must be object")] := by
      simp [Acc.validateProbe, hnm]
    simp [Acc.validateContainer, hk, hlp, hprobe, List.mem_append]

/-- C10 witness: `c10_probe_message` applied to the concrete container
`c10cont` whose `livenessProbe` is the scalar `"nope"` on line 2. -/
theorem c10_probe_message_witness :
    (2, "readinessProbe must be object") ∈ Acc.validateContainer c10cont :=
  c10_probe_message.2 c10cont (scalarN "!!str" "nope" 2) rfl rfl (by decide)

/-! ## C3: the two field accessors on duplicate keys -/

/-- Declarative first-match lookup among key/value pairs, matching only
scalar keys (the membership condition of the accumulate-all `mapify`). -/
def firstScalarHit (key : String) : List (YamlNode × YamlNode) → Option YamlNode
  | [] => none
  | (k, v) :: rest =>
    if k.kind = Kind.scalar ∧ k.value = key then some v else firstScalarHit key rest

theorem firstScalarHit_append (key : String) (l1 l2 : List (YamlNode × YamlNode)) :
    firstScalarHit key (l1 ++ l2) =
      match firstScalarHit key l1 with
      | some v => some v
      | none => firstScalarHit key l2 := by
  induction l1 with
  | nil => simp [firstScalarHit]
  | cons p rest ih =>
    obtain ⟨k, v⟩ := p
    by_cases h : k.kind = Kind.scalar ∧ k.value = key <;>
      simp [firstScalarHit, h, ih]

/-- The Go-map construction loop of `mapify` (later assignments
overwrite) resolves a key to the first scalar match in the REVERSED pair
list, i.e. the last scalar occurrence. -/
theorem mapify_foldl_eq (key : String) (ps : List (YamlNode × YamlNode))
    (acc : Option YamlNode) :
    ps.foldl (mapifyStep key) acc =
      match firstScalarHit key ps.reverse with
      | some v => some v
      | none => acc := by
  induction ps generalizing acc with
  | nil => simp [firstScalarHit]
  | cons p rest ih =>
    rw [List.foldl_cons, ih, List.reverse_cons, firstScalarHit_append]
    cases h : firstScalarHit key rest.reverse with
    | some v => rfl
    | none =>
      obtain ⟨k, v⟩ := p
      by_cases hp : k.kind = Kind.scalar ∧ k.value = key <;>
        simp [firstScalarHit, mapifyStep, hp]

/-- The duplicate-key mapping `{a: first, a: second}`. -/
def c3v1 : YamlNode := scalarN "!!str" "first" 2

def c3v2 : YamlNode := scalarN "!!str" "second" 3

def c3dup : YamlNode := mapN 1 [keyN "a" 2, c3v1, keyN "a" 3, c3v2]

/-- C3 counterexample: on a mapping with a duplicate key `a`, the
accumulate-all accessor `mapify` returns the value paired with the LAST
scalar occurrence of the key (`second`), not the first as the claim
states; the fail-fast accessor `getMapValue` returns the first. -/
theorem c3_counterexample :
    mapify c3dup "a" = some c3v2 ∧ getMapValue c3dup "a" = some c3v1 ∧
    c3v1.value ≠ c3v2.value :=
  ⟨rfl, rfl, by decide⟩

/-- C3 amended: both accessors return absent whenever the node is not a
mapping; on a mapping, `getMapValue` returns the value paired with the
first key whose raw text equals the requested key (without requiring the
key to be scalar), while `mapify` returns the value paired with the LAST
scalar key equal to the requested key (last match wins, because the Go
map assignments overwrite). -/
theorem c3_amended :
    (∀ (n : YamlNode) (key : String), n.kind ≠ Kind.mapping →
      mapify n key = none ∧ getMapValue n key = none) ∧
    (∀ (n : YamlNode) (key : String), n.kind = Kind.mapping →
      mapify n key = firstScalarHit key (pairsOf n.content).reverse ∧
      getMapValue n key = gmvFind (pairsOf n.content) key) := by
  constructor
  · intro n key h
    constructor
    · simp [mapify, h]
    · simp [getMapValue, h]
  · intro n key h
    constructor
    · rw [mapify, if_neg (by simp [h]), mapify_foldl_eq]
      cases firstScalarHit key (pairsOf n.content).reverse <;> rfl
    · simp [getMapValue, h]

/-- C3 witness: `c3_amended` applied to a concrete scalar node and to the
concrete duplicate-key mapping `c3dup`. -/
theorem c3_amended_witness :
    (mapify (scalarN "!!str" "x" 1) "k" = none ∧
      getMapValue (scalarN "!!str" "x" 1) "k" = none) ∧
    (mapify c3dup "a" = firstScalarHit "a" (pairsOf c3dup.content).reverse ∧
      getMapValue c3dup "a" = gmvFind (pairsOf c3dup.content) "a") :=
  ⟨c3_amended.1 (scalarN "!!str" "x" 1) "k" (by decide),
   c3_amended.2 c3dup "a" rfl⟩

/-! ## C4: the memory-quantity checks -/

theorem reMemTail_iff (l : List Char) :
    reMemTail l = true ↔
      ∃ ds u, l = ds ++ [u, 'i'] ∧ (∀ c ∈ ds, c.isDigit = true) ∧
        (u = 'G' ∨ u = 'M' ∨ u = 'K') := by
  induction l with
  | nil =>
    simp [reMemTail]
  | cons c cs ih =>
    by_cases hd : c.isDigit = true
    · rw [show reMemTail (c :: cs) = reMemTail cs from by simp [reMemTail, hd], ih]
      constructor
      · rintro ⟨ds, u, rfl, hdig, hu⟩
        refine ⟨c :: ds, u, rfl, ?_, hu⟩
        intro x hx
        rcases List.mem_cons.mp hx with rfl | hx'
        · exact hd
        · exact hdig x hx'
      · rintro ⟨ds, u, heq, hdig, hu⟩
        cases ds with
        | nil =>
          simp only [List.nil_append, List.cons.injEq] at heq
          obtain ⟨rfl, -⟩ := heq
          rcases hu with rfl | rfl | rfl <;> exact absurd hd (by decide)
        | cons d ds' =>
          simp only [List.cons_append, List.cons.injEq] at heq
          obtain ⟨rfl, rfl⟩ := heq
          exact ⟨ds', u, rfl, fun x hx => hdig x (List.mem_cons_of_mem _ hx), hu⟩
    · rw [show reMemTail (c :: cs) = memSuffix (c :: cs) from by simp [reMemTail, hd]]
      cases cs with
      | nil =>
        simp only [memSuffix, Bool.false_eq_true, false_iff]
        rintro ⟨ds, u, heq, -, -⟩
        have := congrArg List.length heq
        simp at this
      | cons c2 cs2 =>
        cases cs2 with
        | nil =>
          simp only [memSuffix, decide_eq_true_eq]
          constructor
          · rintro ⟨hu, rfl⟩
            exact ⟨[], c, rfl, by simp, hu⟩
          · rintro ⟨ds, u, heq, -, hu⟩
            cases ds with
            | nil =>
              simp only [List.nil_append, List.cons.injEq] at heq
              obtain ⟨rfl, rfl, -⟩ := heq
              exact ⟨hu, rfl⟩
            | cons d ds' =>
              have := congrArg List.length heq
              simp [List.length_append] at this
        | cons c3 cs3 =>
          simp only [memSuffix, Bool.false_eq_true, false_iff]
          rintro ⟨ds, u, heq, hdig, -⟩
          cases ds with
          | nil =>
            have := congrArg List.length heq
            simp at this
          | cons d ds' =>
            simp only [List.cons_append, List.cons.injEq] at heq
            obtain ⟨rfl, -⟩ := heq
            exact absurd (hdig c (List.mem_cons_self c ds')) (by simp [hd])

theorem reMem_iff (s : String) :
    reMem s = true ↔
      ∃ ds u, s.data = ds ++ [u, 'i'] ∧ ds ≠ [] ∧ (∀ c ∈ ds, c.isDigit = true) ∧
        (u = 'G' ∨ u = 'M' ∨ u = 'K') := by
  cases hl : s.data with
  | nil =>
    simp [reMem, hl]
  | cons c cs =>
    rw [show reMem s = (c.isDigit && reMemTail cs) from by rw [reMem, hl],
      Bool.and_eq_true, reMemTail_iff]
    constructor
    · rintro ⟨hd, ds, u, rfl, hdig, hu⟩
      refine ⟨c :: ds, u, rfl, List.cons_ne_nil _ _, ?_, hu⟩
      intro x hx
      rcases List.mem_cons.mp hx with rfl | hx'
      · exact hd
      · exact hdig x hx'
    · rintro ⟨ds, u, heq, hne, hdig, hu⟩
      cases ds with
      | nil => exact absurd rfl hne
      | cons d ds' =>
        simp only [List.cons_append, List.cons.injEq] at heq
        obtain ⟨rfl, rfl⟩ := heq
        exact ⟨hdig c (List.mem_cons_self c ds'), ds', u, rfl,
          fun x hx => hdig x (List.mem_cons_of_mem _ hx), hu⟩

theorem isValidMemory_iff (s : String) :
    FF.isValidMemory s = true ↔
      ∃ ds u, s.data = ds ++ [u, 'i'] ∧ ds ≠ [] ∧
        (atoi (String.mk ds)).isSome = true ∧ (u = 'G' ∨ u = 'M' ∨ u = 'K') := by
  unfold FF.isValidMemory
  constructor
  · intro h
    by_cases h1 : s.data.length < 3
    · rw [if_pos h1] at h
      simp at h
    · rw [if_neg h1] at h
      by_cases h2 : s.data.drop (s.data.length - 2) ≠ ['G', 'i'] ∧
          s.data.drop (s.data.length - 2) ≠ ['M', 'i'] ∧
          s.data.drop (s.data.length - 2) ≠ ['K', 'i']
      · rw [if_pos h2] at h
        simp at h
      · rw [if_neg h2] at h
        by_cases h3 : s.data.take (s.data.length - 2) = ([] : List Char)
        · rw [if_pos h3] at h
          simp at h
        · rw [if_neg h3] at h
          have hsplit := List.take_append_drop (s.data.length - 2) s.data
          have hunit : s.data.drop (s.data.length - 2) = ['G', 'i'] ∨
              s.data.drop (s.data.length - 2) = ['M', 'i'] ∨
              s.data.drop (s.data.length - 2) = ['K', 'i'] := by
            by_contra hcon
            push_neg at hcon
            exact h2 hcon
          rcases hunit with he | he | he
          · exact ⟨s.data.take (s.data.length - 2), 'G',
              by rw [he] at hsplit; exact hsplit.symm, h3, h, Or.inl rfl⟩
          · exact ⟨s.data.take (s.data.length - 2), 'M',
              by rw [he] at hsplit; exact hsplit.symm, h3, h, Or.inr (Or.inl rfl)⟩
          · exact ⟨s.data.take (s.data.length - 2), 'K',
              by rw [he] at hsplit; exact hsplit.symm, h3, h, Or.inr (Or.inr rfl)⟩
  · rintro ⟨ds, u, heq, hne, hat, hu⟩
    have hlen : s.data.length = ds.length + 2 := by
      rw [heq]
      simp
    have hdslen : 1 ≤ ds.length := List.length_pos.mpr hne
    have h1 : ¬ s.data.length < 3 := by omega
    have hdrop : s.data.drop (s.data.length - 2) = [u, 'i'] := by
      rw [heq]
      have hl2 : (ds ++ [u, 'i']).length - 2 = ds.length := by simp
      rw [hl2, List.drop_left]
    have htake : s.data.take (s.data.length - 2) = ds := by
      rw [heq]
      have hl2 : (ds ++ [u, 'i']).length - 2 = ds.length := by simp
      rw [hl2, List.take_left]
    have h2 : ¬ (s.data.drop (s.data.length - 2) ≠ ['G', 'i'] ∧
        s.data.drop (s.data.length - 2) ≠ ['M', 'i'] ∧
        s.data.drop (s.data.length - 2) ≠ ['K', 'i']) := by
      rw [hdrop]
      rcases hu with rfl | rfl | rfl <;> simp
    have h3 : ¬ (s.data.take (s.data.length - 2) = ([] : List Char)) := by
      rw [htake]
      exact hne
    rw [if_neg h1, if_neg h2, if_neg h3, htake]
    exact hat

/-- C4 counterexample: the fail-fast memory check accepts `"-5Gi"`
(the numeric part is handed to `strconv.Atoi`, which accepts a leading
sign), while the claimed pattern — implemented exactly by the
accumulate-all `reMem` — rejects it. -/
theorem c4_counterexample :
    FF.isValidMemory "-5Gi" = true ∧ reMem "-5Gi" = false := by
  refine ⟨by decide, by decide⟩

/-- C4 amended: the accumulate-all check `reMem` accepts a string iff it
is a non-empty digit run followed by exactly one of `Gi`/`Mi`/`Ki`
(the claimed pattern); the fail-fast `isValidMemory` instead accepts iff
the part before a `Gi`/`Mi`/`Ki` suffix is non-empty and parses under
`strconv.Atoi` — so it additionally accepts a leading sign (`"-5Gi"`)
and additionally rejects digit runs overflowing a signed 64-bit integer. -/
theorem c4_amended :
    (∀ s : String, reMem s = true ↔
      ∃ ds u, s.data = ds ++ [u, 'i'] ∧ ds ≠ [] ∧ (∀ c ∈ ds, c.isDigit = true) ∧
        (u = 'G' ∨ u = 'M' ∨ u = 'K')) ∧
    (∀ s : String, FF.isValidMemory s = true ↔
      ∃ ds u, s.data = ds ++ [u, 'i'] ∧ ds ≠ [] ∧
        (atoi (String.mk ds)).isSome = true ∧ (u = 'G' ∨ u = 'M' ∨ u = 'K')) ∧
    FF.isValidMemory "-5Gi" = true ∧ reMem "-5Gi" = false ∧
    reMem "9999999999999999999999Gi" = true ∧
    FF.isValidMemory "9999999999999999999999Gi" = false ∧
    reMem "512Mi" = true ∧ reMem "2Gi" = true ∧ reMem "100Ki" = true ∧
    FF.isValidMemory "512Mi" = true ∧
    reMem "512mi" = false ∧ reMem "512" = false ∧ reMem "512Xi" = false ∧
    FF.isValidMemory "512mi" = false ∧ FF.isValidMemory "512" = false ∧
    FF.isValidMemory "512Xi" = false :=
  ⟨reMem_iff, isValidMemory_iff, by decide, by decide, by decide, by decide,
   by decide, by decide, by decide, by decide, by decide, by decide, by decide,
   by decide, by decide, by decide⟩

/-- C4 witness: the two characterizations of `c4_amended` applied to the
concrete strings `"7Gi"` and `"7Mi"`. -/
theorem c4_amended_witness :
    reMem "7Gi" = true ∧ FF.isValidMemory "7Mi" = true :=
  ⟨(c4_amended.1 "7Gi").mpr ⟨['7'], 'G', rfl, by decide, by decide, Or.inl rfl⟩,
   (c4_amended.2.1 "7Mi").mpr
     ⟨['7'], 'M', rfl, by decide, by decide, Or.inr (Or.inl rfl)⟩⟩

/-! ## C5: the name-format checks -/

theorem okc_ne_underscore {c : Char} (h : okc c = true) : c ≠ '_' := by
  intro he
  subst he
  exact absurd h (by decide)

theorem getLast?_cons_of_ne_nil (c : Char) {cs : List Char} (h : cs ≠ []) :
    (c :: cs).getLast? = cs.getLast? := by
  cases cs with
  | nil => exact absurd rfl h
  | cons d ds => exact List.getLast?_cons_cons

/-- Joint characterization of the two states of the `reSnake` matcher:
state `false` accepts `[a-z0-9_]` strings with no trailing underscore and
no double underscore; state `true` (the initial state) additionally
requires non-emptiness and no leading underscore. -/
theorem snakeRun_iff (l : List Char) :
    (snakeRun false l = true ↔
      ((∀ c ∈ l, okc c = true ∨ c = '_') ∧
        List.Chain' (fun a b => ¬(a = '_' ∧ b = '_')) l ∧ l.getLast? ≠ some '_')) ∧
    (snakeRun true l = true ↔
      (l ≠ [] ∧ (∀ c ∈ l, okc c = true ∨ c = '_') ∧
        List.Chain' (fun a b => ¬(a = '_' ∧ b = '_')) l ∧
        l.head? ≠ some '_' ∧ l.getLast? ≠ some '_')) := by
  induction l with
  | nil => constructor <;> simp [snakeRun]
  | cons c cs ih =>
    constructor
    · show (if okc c then snakeRun false cs else if c = '_' then snakeRun true cs
          else false) = true ↔ _
      by_cases hc : okc c = true
      · rw [if_pos hc, ih.1]
        constructor
        · rintro ⟨hall, hch, hlast⟩
          refine ⟨?_, ?_, ?_⟩
          · intro x hx
            rcases List.mem_cons.mp hx with rfl | hx'
            · exact Or.inl hc
            · exact hall x hx'
          · rw [List.chain'_cons']
            exact ⟨fun b _ hb => okc_ne_underscore hc hb.1, hch⟩
          · cases hcs : cs with
            | nil => simpa using okc_ne_underscore hc
            | cons d ds =>
              rw [getLast?_cons_of_ne_nil c (by simp [hcs])]
              rw [hcs] at hlast
              exact hlast
        · rintro ⟨hall, hch, hlast⟩
          refine ⟨fun x hx => hall x (List.mem_cons_of_mem _ hx),
            (List.chain'_cons'.mp hch).2, ?_⟩
          cases hcs : cs with
          | nil => simp
          | cons d ds =>
            rw [hcs] at hlast
            rw [getLast?_cons_of_ne_nil c (by simp [hcs])] at hlast
            exact hlast
      · by_cases hu : c = '_'
        · subst hu
          rw [if_neg hc, if_pos rfl, ih.2]
          constructor
          · rintro ⟨hne, hall, hch, hhead, hlast⟩
            refine ⟨?_, ?_, ?_⟩
            · intro x hx
              rcases List.mem_cons.mp hx with rfl | hx'
              · exact Or.inr rfl
              · exact hall x hx'
            · rw [List.chain'_cons']
              refine ⟨?_, hch⟩
              intro b hb hb2
              exact hhead (by rw [Option.mem_def.mp hb, hb2.2])
            · rw [getLast?_cons_of_ne_nil '_' hne]
              exact hlast
          · rintro ⟨hall, hch, hlast⟩
            have hcsne : cs ≠ [] := by
              rintro rfl
              simp at hlast
            refine ⟨hcsne, fun x hx => hall x (List.mem_cons_of_mem _ hx),
              (List.chain'_cons'.mp hch).2, ?_, ?_⟩
            · intro hh
              exact (List.chain'_cons'.mp hch).1 '_' (Option.mem_def.mpr hh) ⟨rfl, rfl⟩
            · rw [getLast?_cons_of_ne_nil '_' hcsne] at hlast
              exact hlast
        · rw [if_neg hc, if_neg hu]
          constructor
          · intro h
            exact absurd h (by simp)
          · rintro ⟨hall, -, -⟩
            rcases hall c (List.mem_cons_self c cs) with h | h
            · exact absurd h hc
            · exact absurd h hu
    · show (okc c && snakeRun false cs) = true ↔ _
      rw [Bool.and_eq_true, ih.1]
      constructor
      · rintro ⟨hc, hall, hch, hlast⟩
        refine ⟨List.cons_ne_nil _ _, ?_, ?_, ?_, ?_⟩
        · intro x hx
          rcases List.mem_cons.mp hx with rfl | hx'
          · exact Or.inl hc
          · exact hall x hx'
        · rw [List.chain'_cons']
          exact ⟨fun b _ hb => okc_ne_underscore hc hb.1, hch⟩
        · simpa using okc_ne_underscore hc
        · cases hcs : cs with
          | nil => simpa using okc_ne_underscore hc
          | cons d ds =>
            rw [getLast?_cons_of_ne_nil c (by simp [hcs])]
            rw [hcs] at hlast
            exact hlast
      · rintro ⟨-, hall, hch, hhead, hlast⟩
        have hcne : c ≠ '_' := by
          intro hc
          exact hhead (by rw [hc]; rfl)
        have hc : okc c = true := by
          rcases hall c (List.mem_cons_self c cs) with h | h
          · exact h
          · exact absurd h hcne
        refine ⟨hc, fun x hx => hall x (List.mem_cons_of_mem _ hx),
          (List.chain'_cons'.mp hch).2, ?_⟩
        cases hcs : cs with
        | nil => simp
        | cons d ds =>
          rw [hcs] at hlast
          rw [getLast?_cons_of_ne_nil c (by simp [hcs])] at hlast
          exact hlast

theorem reSnake_iff (s : String) :
    reSnake s = true ↔
      (s.data ≠ [] ∧ (∀ c ∈ s.data, okc c = true ∨ c = '_') ∧
        List.Chain' (fun a b => ¬(a = '_' ∧ b = '_')) s.data ∧
        s.data.head? ≠ some '_' ∧ s.data.getLast? ≠ some '_') :=
  (snakeRun_iff s.data).2

/-- Characterization of the fail-fast character loop at positions ≥ 1:
any `[a-z0-9_]` characters are accepted, except an underscore in last
position. -/
theorem snakeChars_iff (n : Nat) (l : List Char) :
    ∀ i : Nat, 1 ≤ i → n = i + l.length →
      (FF.snakeChars n i l = true ↔
        ((∀ c ∈ l, okc c = true ∨ c = '_') ∧ l.getLast? ≠ some '_')) := by
  induction l with
  | nil =>
    intro i h1 h2
    simp [FF.snakeChars]
  | cons c cs ih =>
    intro i h1 h2
    show (if okc c then FF.snakeChars n (i + 1) cs
        else if c = '_' ∧ i ≠ 0 ∧ i ≠ n - 1 then FF.snakeChars n (i + 1) cs
        else false) = true ↔ _
    have h2' : n = (i + 1) + cs.length := by
      simp only [List.length_cons] at h2
      omega
    by_cases hc : okc c = true
    · rw [if_pos hc, ih (i + 1) (by omega) h2']
      constructor
      · rintro ⟨hall, hlast⟩
        refine ⟨?_, ?_⟩
        · intro x hx
          rcases List.mem_cons.mp hx with rfl | hx'
          · exact Or.inl hc
          · exact hall x hx'
        · cases hcs : cs with
          | nil => simpa using okc_ne_underscore hc
          | cons d ds =>
            rw [getLast?_cons_of_ne_nil c (by simp [hcs])]
            rw [hcs] at hlast
            exact hlast
      · rintro ⟨hall, hlast⟩
        refine ⟨fun x hx => hall x (List.mem_cons_of_mem _ hx), ?_⟩
        cases hcs : cs with
        | nil => simp
        | cons d ds =>
          rw [hcs] at hlast
          rw [getLast?_cons_of_ne_nil c (by simp [hcs])] at hlast
          exact hlast
    · by_cases hu : c = '_'
      · subst hu
        by_cases hcs : cs = []
        · subst hcs
          have h20 : n = i + 1 := by simpa using h2'
          have hlastpos : i = n - 1 := by omega
          rw [if_neg hc, if_neg (fun h => h.2.2 hlastpos)]
          simp
        · have hin : i ≠ n - 1 := by
            have := List.length_pos.mpr hcs
            omega
          rw [if_neg hc, if_pos ⟨rfl, by omega, hin⟩, ih (i + 1) (by omega) h2']
          constructor
          · rintro ⟨hall, hlast⟩
            refine ⟨?_, ?_⟩
            · intro x hx
              rcases List.mem_cons.mp hx with rfl | hx'
              · exact Or.inr rfl
              · exact hall x hx'
            · rw [getLast?_cons_of_ne_nil '_' hcs]
              exact hlast
          · rintro ⟨hall, hlast⟩
            refine ⟨fun x hx => hall x (List.mem_cons_of_mem _ hx), ?_⟩
            rw [getLast?_cons_of_ne_nil '_' hcs] at hlast
            exact hlast
      · rw [if_neg hc, if_neg (fun h => hu h.1)]
        constructor
        · intro h
          exact absurd h (by simp)
        · rintro ⟨hall, -⟩
          rcases hall c (List.mem_cons_self c cs) with h | h
          · exact absurd h hc
          · exact absurd h hu

theorem isSnakeCase_iff (s : String) :
    FF.isSnakeCase s = true ↔
      (s.data ≠ [] ∧ (∀ c ∈ s.data, okc c = true ∨ c = '_') ∧
        s.data.head? ≠ some '_' ∧ s.data.getLast? ≠ some '_') := by
  rw [FF.isSnakeCase]
  by_cases hs : s = ""
  · rw [if_pos hs, hs]
    simp
  · rw [if_neg hs]
    have hd : s.data ≠ [] := fun h => hs (String.ext (h.trans rfl))
    obtain ⟨c, cs, hl⟩ := List.exists_cons_of_ne_nil hd
    rw [hl]
    show (if okc c then FF.snakeChars (c :: cs).length (0 + 1) cs
        else if c = '_' ∧ (0 : Nat) ≠ 0 ∧ (0 : Nat) ≠ (c :: cs).length - 1 then
          FF.snakeChars (c :: cs).length (0 + 1) cs
        else false) = true ↔ _
    by_cases hc : okc c = true
    · rw [if_pos hc, snakeChars_iff (c :: cs).length cs 1 (by omega)
        (by simp only [List.length_cons]; omega)]
      constructor
      · rintro ⟨hall, hlast⟩
        refine ⟨List.cons_ne_nil _ _, ?_, ?_, ?_⟩
        · intro x hx
          rcases List.mem_cons.mp hx with rfl | hx'
          · exact Or.inl hc
          · exact hall x hx'
        · simpa using okc_ne_underscore hc
        · cases hcs : cs with
          | nil => simpa using okc_ne_underscore hc
          | cons d ds =>
            rw [getLast?_cons_of_ne_nil c (by simp [hcs])]
            rw [hcs] at hlast
            exact hlast
      · rintro ⟨-, hall, hhead, hlast⟩
        refine ⟨fun x hx => hall x (List.mem_cons_of_mem _ hx), ?_⟩
        cases hcs : cs with
        | nil => simp
        | cons d ds =>
          rw [hcs] at hlast
          rw [getLast?_cons_of_ne_nil c (by simp [hcs])] at hlast
          exact hlast
    · rw [if_neg hc, if_neg (fun h => h.2.1 rfl)]
      constructor
      · intro h
        exact absurd h (by simp)
      · rintro ⟨-, hall, hhead, -⟩
        rcases hall c (List.mem_cons_self c cs) with h | h
        · exact absurd h hc
        · refine absurd ?_ hhead
          rw [h]
          rfl

/-- C5 counterexample: the fail-fast name check accepts `"a__b"`
— its loop only rejects a leading or trailing underscore — while the
claimed pattern, implemented exactly by the accumulate-all `reSnake`,
rejects the double underscore. -/
theorem c5_counterexample :
    FF.isSnakeCase "a__b" = true ∧ reSnake "a__b" = false := by
  refine ⟨by decide, by decide⟩

/-- C5 amended: the accumulate-all check `reSnake` accepts a name iff it
is non-empty, uses only `[a-z0-9_]`, has no leading or trailing
underscore and no two consecutive underscores (the claimed pattern); the
fail-fast `isSnakeCase` accepts iff the same holds WITHOUT the
double-underscore restriction, so `"a__b"` is accepted by it; uppercase,
hyphens, and leading/trailing underscores are rejected by both. -/
theorem c5_amended :
    (∀ s : String, reSnake s = true ↔
      (s.data ≠ [] ∧ (∀ c ∈ s.data, okc c = true ∨ c = '_') ∧
        List.Chain' (fun a b => ¬(a = '_' ∧ b = '_')) s.data ∧
        s.data.head? ≠ some '_' ∧ s.data.getLast? ≠ some '_')) ∧
    (∀ s : String, FF.isSnakeCase s = true ↔
      (s.data ≠ [] ∧ (∀ c ∈ s.data, okc c = true ∨ c = '_') ∧
        s.data.head? ≠ some '_' ∧ s.data.getLast? ≠ some '_')) ∧
    FF.isSnakeCase "a__b" = true ∧ reSnake "a__b" = false ∧
    reSnake "web_1" = true ∧ FF.isSnakeCase "web_1" = true ∧
    reSnake "_a" = false ∧ FF.isSnakeCase "_a" = false ∧
    reSnake "a_" = false ∧ FF.isSnakeCase "a_" = false ∧
    reSnake "Web-1" = false ∧ FF.isSnakeCase "Web-1" = false :=
  ⟨reSnake_iff, isSnakeCase_iff, by decide, by decide, by decide, by decide,
   by decide, by decide, by decide, by decide, by decide, by decide⟩

/-- C5 witness: the two characterizations of `c5_amended` applied to the
concrete name `"ab"`. -/
theorem c5_amended_witness :
    reSnake "ab" = true ∧ FF.isSnakeCase "ab" = true :=
  ⟨(c5_amended.1 "ab").mpr
    ⟨by decide, by decide,
     by rw [show "ab".data = ['a', 'b'] from rfl, List.chain'_cons]
        exact ⟨by decide, List.chain'_singleton _⟩,
     by decide, by decide⟩,
   (c5_amended.2.1 "ab").mpr ⟨by decide, by decide, by decide, by decide⟩⟩

end PodValid
